import Mathlib

/-!
Verification of the user-profile-manager repository (client-side cache,
pagination coordinator, API client, REST backend, QR codec).

The TypeScript/JavaScript sources are shallowly embedded: JavaScript values
flowing through duck-typed code are modelled by the inductive type Json,
JavaScript Map and localStorage by insertion-ordered association lists, time
by a Nat parameter standing for Date.now(), and the single-threaded event
loop by explicit state passing. Fallible operations return Option.
-/

/-! ## JavaScript value model -/

mutual
/-- JSON value as produced by JSON.parse / consumed by JSON.stringify.
Numbers are restricted to integers, which covers every numeric value the
sources put into JSON (page numbers, limits, timestamps, ttl). -/
inductive Json where
  | null : Json
  | bool (b : Bool) : Json
  | num (n : Int) : Json
  | str (s : String) : Json
  | arr (xs : JArr) : Json
  | obj (fs : JObj) : Json
  deriving DecidableEq
/-- Array of JSON values. -/
inductive JArr where
  | nil : JArr
  | cons (hd : Json) (tl : JArr) : JArr
  deriving DecidableEq
/-- Object: ordered field list, as JavaScript objects preserve insertion
order of string keys. -/
inductive JObj where
  | nil : JObj
  | cons (key : String) (val : Json) (tl : JObj) : JObj
  deriving DecidableEq
end

/-- Build a JArr from a list. -/
def JArr.ofList : List Json → JArr
  | [] => .nil
  | x :: t => .cons x (JArr.ofList t)

/-- Length of a JArr. -/
def JArr.length : JArr → Nat
  | .nil => 0
  | .cons _ t => 1 + JArr.length t

/-- Build a JObj from a field list. -/
def JObj.ofList : List (String × Json) → JObj
  | [] => .nil
  | (k, v) :: t => .cons k v (JObj.ofList t)

/-- First field with the given key, as JavaScript property lookup on a plain
object built from JSON. -/
def JObj.lookup : JObj → String → Option Json
  | .nil, _ => none
  | .cons k v t, key => if k = key then some v else JObj.lookup t key

/-- Property access j.k on a JSON value: a field of an object, undefined
(none) on every other shape. Accessing a property of null throws in
JavaScript; every such access in the sources sits inside a try/catch whose
handler coincides with the undefined outcome, so none is a faithful result
there as well. -/
def Json.getField : Json → String → Option Json
  | .obj fs, key => fs.lookup key
  | _, _ => none

/-- JavaScript truthiness of a defined value. -/
def jsTruthy : Json → Bool
  | .null => false
  | .bool b => b
  | .num n => n != 0
  | .str s => s != ""
  | .arr _ => true
  | .obj _ => true

/-- JavaScript truthiness where none stands for undefined. -/
def jsTruthyOpt : Option Json → Bool
  | none => false
  | some v => jsTruthy v

/-- Hexadecimal digit (lower case), for JSON string escapes. -/
def hexDigit (n : Nat) : Char :=
  "0123456789abcdef".toList.getD n '0'

/-- Escape of one character inside a JSON string literal, following
JSON.stringify: quote, backslash and control characters are escaped, all
other characters are emitted as themselves. -/
def jsonEscapeChar (c : Char) : String :=
  if c = '"' then "\\\""
  else if c = '\\' then "\\\\"
  else if c = '\n' then "\\n"
  else if c = '\t' then "\\t"
  else if c = '\r' then "\\r"
  else if c.toNat < 32 then
    String.mk ['\\', 'u', '0', '0', hexDigit (c.toNat / 16), hexDigit (c.toNat % 16)]
  else String.mk [c]

/-- JSON string literal for s, with JSON.stringify escaping. -/
def jsonQuote (s : String) : String :=
  "\"" ++ String.join (s.toList.map jsonEscapeChar) ++ "\""

mutual
/-- JSON.stringify on the modelled value space. -/
def stringify : Json → String
  | .null => "null"
  | .bool b => cond b "true" "false"
  | .num n => toString n
  | .str s => jsonQuote s
  | .arr xs => "[" ++ stringifyArr xs ++ "]"
  | .obj fs => "\x7b" ++ stringifyObj fs ++ "\x7d"
/-- Comma-joined serialization of array elements. -/
def stringifyArr : JArr → String
  | .nil => ""
  | .cons h .nil => stringify h
  | .cons h t => stringify h ++ "," ++ stringifyArr t
/-- Comma-joined serialization of object fields. -/
def stringifyObj : JObj → String
  | .nil => ""
  | .cons k v .nil => jsonQuote k ++ ":" ++ stringify v
  | .cons k v t => jsonQuote k ++ ":" ++ stringify v ++ "," ++ stringifyObj t
end

/-- Code units of a string, the byte view btoa takes of a latin1 string.
All strings fed to btoa by the sources are ASCII, where code units and
UTF-8 bytes coincide. -/
def strCodeUnits (s : String) : List Nat :=
  s.toList.map Char.toNat

/-- Base64 alphabet character. -/
def b64Char (n : Nat) : Char :=
  "ABCDEFGHIJKLMNOPQRSTUVWXYZabcdefghijklmnopqrstuvwxyz0123456789+/".toList.getD n 'A'

/-- Standard base64 of a byte list, as the browser btoa primitive. -/
def base64Encode : List Nat → String
  | [] => ""
  | [a] => String.mk [b64Char (a / 4), b64Char (a % 4 * 16), '=', '=']
  | [a, b] => String.mk [b64Char (a / 4), b64Char (a % 4 * 16 + b / 16), b64Char (b % 16 * 4), '=']
  | a :: b :: c :: rest =>
    String.mk [b64Char (a / 4), b64Char (a % 4 * 16 + b / 16), b64Char (b % 16 * 4 + c / 64), b64Char (c % 64)]
      ++ base64Encode rest

/-- Filter keeping only ASCII letters and digits, the replace(/[^a-zA-Z0-9]/g, '')
step of the cache key derivation. -/
def stripNonAlnum (s : String) : String :=
  String.mk (s.toList.filter Char.isAlphanum)

/-- Test whether the list l begins with the list p. -/
def listLeads : List Char → List Char → Bool
  | _, [] => true
  | [], _ :: _ => false
  | a :: s, b :: t => a = b && listLeads s t

/-- Test whether sub occurs as a contiguous run inside l. -/
def listHasRun (sub : List Char) : List Char → Bool
  | [] => sub.isEmpty
  | a :: t => listLeads (a :: t) sub || listHasRun sub t

/-- JavaScript String.prototype.includes. -/
def jsIncludes (s sub : String) : Bool :=
  listHasRun sub.toList s.toList

/-! ## Insertion-ordered map (JavaScript Map, and the localStorage key space)

A JavaScript Map iterates in key insertion order and overwriting an existing
key keeps its position; these association-list operations mirror that. -/

/-- Lookup in an insertion-ordered association list (Map.get / localStorage.getItem). -/
def mapGet {β : Type} (k : String) (m : List (String × β)) : Option β :=
  (m.find? (fun p => p.1 = k)).map (fun p => p.2)

/-- Write to an insertion-ordered association list (Map.set / localStorage.setItem):
overwrite in place when the key exists, append otherwise. -/
def mapSet {β : Type} (k : String) (v : β) : List (String × β) → List (String × β)
  | [] => [(k, v)]
  | (k1, v1) :: t => if k1 = k then (k, v) :: t else (k1, v1) :: mapSet k v t

/-- Removal from an insertion-ordered association list (Map.delete /
localStorage.removeItem): drops the first entry with the key. -/
def mapDelete {β : Type} (k : String) : List (String × β) → List (String × β)
  | [] => []
  | (k1, v1) :: t => if k1 = k then t else (k1, v1) :: mapDelete k t

/-! ## APICache — src/src/utils/apiCache.ts -/

/-- CacheEntry of apiCache.ts: stored value, write timestamp, time to live
in milliseconds. -/
structure CacheEntry where
  data : Json
  timestamp : Nat
  ttl : Nat
  deriving DecidableEq

/-- State of the APICache singleton: the in-memory Map and the localStorage
key space it persists into. localStorage entries are held in parsed form;
the serialize/parse round trip through localStorage is faithful for the
well-formed entries this store writes. -/
structure APICache where
  memoryCache : List (String × CacheEntry)
  localStore : List (String × CacheEntry)
  deriving DecidableEq

/-- Fresh cache (the module-initialization state of the singleton, with an
empty localStorage). -/
def APICache.empty : APICache :=
  { memoryCache := [], localStore := [] }

/-- DEFAULT_TTL of apiCache.ts: five minutes in milliseconds. -/
def APICache.DEFAULT_TTL : Nat := 5 * 60 * 1000

/-- MAX_MEMORY_ITEMS of apiCache.ts. -/
def APICache.MAX_MEMORY_ITEMS : Nat := 100

/-- generateKey of apiCache.ts: api_cache_ prefixed, base64 of the endpoint
concatenated with the JSON-serialized params (empty string when params is
undefined), with every non-alphanumeric character stripped. -/
def APICache.generateKey (endpoint : String) (params : Option Json) : String :=
  "api_cache_" ++
    stripNonAlnum (base64Encode (strCodeUnits (endpoint ++
      (match params with
       | some p => stringify p
       | none => ""))))

/-- isValidEntry of apiCache.ts: now - timestamp < ttl. The subtraction is
Nat-truncated; the sources only ever compare a write timestamp against a
later (or equal) now, where it agrees with JavaScript arithmetic. -/
def APICache.isValidEntry (now : Nat) (e : CacheEntry) : Bool :=
  now - e.timestamp < e.ttl

/-- Capacity step at the top of set: when the memory Map holds
MAX_MEMORY_ITEMS or more entries, the first key of its iteration order is
deleted; the deletion is guarded by key truthiness, as the source tests the
string before deleting. -/
def evictIfFull (mem : List (String × CacheEntry)) : List (String × CacheEntry) :=
  if APICache.MAX_MEMORY_ITEMS ≤ mem.length then
    match mem.head? with
    | some (k0, _) => if k0 = "" then mem else mapDelete k0 mem
    | none => mem
  else mem

/-- set of apiCache.ts at time now. When the memory Map is at capacity, the
oldest entry is evicted (evictIfFull); the entry is then written to the Map,
and also persisted to localStorage when its serialized form stays under
100000 characters. localStorage write failures degrade to the memory layer
alone; the quota is not modelled, so the write succeeds. -/
def APICache.set (now : Nat) (endpoint : String) (data : Json) (params : Option Json)
    (ttl : Nat) (c : APICache) : APICache :=
  { memoryCache :=
      mapSet (APICache.generateKey endpoint params) { data := data, timestamp := now, ttl := ttl }
        (evictIfFull c.memoryCache)
    localStore :=
      if (stringify data).length < 100000 then
        mapSet (APICache.generateKey endpoint params) { data := data, timestamp := now, ttl := ttl }
          c.localStore
      else c.localStore }

/-- get of apiCache.ts at time now: memory layer first, returned when valid;
otherwise the localStorage layer, whose valid entries are restored into the
memory Map (with no capacity check) and whose expired entries are removed
from localStorage only. Returns the value (none standing for null) together
with the mutated store. -/
def APICache.get (now : Nat) (endpoint : String) (params : Option Json)
    (c : APICache) : Option Json × APICache :=
  let key := APICache.generateKey endpoint params
  match mapGet key c.memoryCache with
  | some e =>
    if APICache.isValidEntry now e then (some e.data, c)
    else
      match mapGet key c.localStore with
      | some l =>
        if APICache.isValidEntry now l then
          (some l.data, { c with memoryCache := mapSet key l c.memoryCache })
        else (none, { c with localStore := mapDelete key c.localStore })
      | none => (none, c)
  | none =>
    match mapGet key c.localStore with
    | some l =>
      if APICache.isValidEntry now l then
        (some l.data, { c with memoryCache := mapSet key l c.memoryCache })
      else (none, { c with localStore := mapDelete key c.localStore })
    | none => (none, c)

/-- invalidate of apiCache.ts: removes exactly the derived key from both
layers. -/
def APICache.invalidate (endpoint : String) (params : Option Json) (c : APICache) : APICache :=
  let key := APICache.generateKey endpoint params
  { memoryCache := mapDelete key c.memoryCache
    localStore := mapDelete key c.localStore }

/-! ## withCache — src/src/utils/apiCache.ts -/

/-- Success test of withCache before storing: the result is a non-null
object carrying a truthy success field (result && typeof result === 'object'
&& 'success' in result && result.success; arrays carry no success field). -/
def isCacheableSuccess : Json → Bool
  | .obj fs => jsTruthyOpt (fs.lookup "success")
  | _ => false

/-- Outcome of one call through the withCache wrapper: the value handed to
the caller, the cache afterwards, and whether the wrapped operation ran. -/
structure WithCacheCall where
  result : Json
  cache : APICache
  invoked : Bool
  deriving DecidableEq

/-- withCache of apiCache.ts, one call at time now. The wrapped operation is
a function from the argument list to its settled value (the event loop is
single-threaded, so the await introduces no interleaving inside one call).
Params are the object holding the argument array when arguments exist,
undefined otherwise; a cached value is returned when truthy; otherwise the
operation runs and its result is stored only when isCacheableSuccess holds,
under the wrapper's ttl or the store default. First, the params value: the
object holding the argument array when arguments exist, undefined
otherwise. -/
def withCacheParams (args : List Json) : Option Json :=
  if 0 < args.length then
    some (Json.obj (JObj.cons "args" (Json.arr (JArr.ofList args)) JObj.nil))
  else none

/-- Body of the wrapper returned by withCache, one call at time now. -/
def withCache (fn : List Json → Json) (endpoint : String) (ttl : Option Nat)
    (now : Nat) (args : List Json) (c : APICache) : WithCacheCall :=
  let params : Option Json := withCacheParams args
  let got := APICache.get now endpoint params c
  let proceed : WithCacheCall :=
    let result := fn args
    let c2 :=
      if isCacheableSuccess result then
        APICache.set now endpoint result params (ttl.getD APICache.DEFAULT_TTL) got.2
      else got.2
    { result := result, cache := c2, invoked := true }
  match got.1 with
  | some v => if jsTruthy v then { result := v, cache := got.2, invoked := false } else proceed
  | none => proceed

/-! ## Profile API Client — lib/api.ts (second document of
src/src/components/UserProfileList.tsx) -/

/-- Outcome of one fetch + response.json() at the transport boundary:
either a settled HTTP response with parsed JSON body, or a rejection
(network failure or JSON parse failure) with the caught error message. -/
inductive FetchOutcome where
  | success (status : Nat) (body : Json) : FetchOutcome
  | failure (msg : String) : FetchOutcome
  deriving DecidableEq

/-- Uniform result shape of the API client: data, success, message. -/
structure ApiResponse where
  data : Json
  success : Bool
  message : String
  deriving DecidableEq

/-- Message fallback data.error || generic. The error fields this backend
emits are always non-empty strings; a missing, empty or non-string error
field falls back to the generic text. -/
def jsOrString (o : Option Json) (fallback : String) : String :=
  match o with
  | some (Json.str s) => if s = "" then fallback else s
  | _ => fallback

/-- fetchWithErrorHandling of lib/api.ts, as a function of the transport
outcome: non-2xx responses map to success=false with the empty-object
placeholder and the server error text (or a generic status message);
2xx responses wrap the body; rejections map to success=false with the
caught message. -/
def fetchWithErrorHandling : FetchOutcome → ApiResponse
  | .success status body =>
    if 200 ≤ status ∧ status < 300 then
      { data := body, success := true, message := "Operation completed successfully" }
    else
      { data := Json.obj .nil, success := false,
        message := jsOrString (body.getField "error") (s!"HTTP error! status: {status}") }
  | .failure msg => { data := Json.obj .nil, success := false, message := msg }

/-- getUserById of lib/api.ts as a function of its single fetch outcome:
the wrapped response, remapped to data=null with the domain message when it
failed and its message contains the substring 404. -/
def getUserById (o : FetchOutcome) : ApiResponse :=
  let r := fetchWithErrorHandling o
  if ¬ r.success ∧ jsIncludes r.message "404" = true then
    { data := Json.null, success := false, message := "User not found" }
  else r

/-- deleteUser of lib/api.ts as a function of its fetch outcome: the
response with data replaced by the boolean success flag. -/
def deleteUserClient (o : FetchOutcome) : ApiResponse :=
  let r := fetchWithErrorHandling o
  { data := Json.bool r.success, success := r.success, message := r.message }

/-- getAllUsers of lib/api.ts as a function of its fetch outcome: a plain
fetchWithErrorHandling wrap, so its data field is exactly the parsed
response body. -/
def getAllUsersClient (o : FetchOutcome) : ApiResponse :=
  fetchWithErrorHandling o

/-! ## Backend — src/server.ts -/

/-- Row of the users table. Timestamps are epoch instants. -/
structure DbUser where
  id : String
  fullName : String
  email : String
  phoneNumber : Option String
  bio : Option String
  avatarUrl : Option String
  dateOfBirth : Option String
  location : Option String
  createdAt : Nat
  updatedAt : Nat
  deriving DecidableEq

/-- Serialization of a nullable column. -/
def optStrJson : Option String → Json
  | some s => .str s
  | none => .null

/-- Row as res.json serializes it. Date columns render as strings of the
instant; the exact date format is irrelevant to every property proved here,
only its presence and injectivity in the instant matter. -/
def dbUserToJson (u : DbUser) : Json :=
  Json.obj (JObj.ofList
    [("id", .str u.id), ("fullName", .str u.fullName), ("email", .str u.email),
     ("phoneNumber", optStrJson u.phoneNumber), ("bio", optStrJson u.bio),
     ("avatarUrl", optStrJson u.avatarUrl), ("dateOfBirth", optStrJson u.dateOfBirth),
     ("location", optStrJson u.location),
     ("createdAt", .str (toString u.createdAt)), ("updatedAt", .str (toString u.updatedAt))])

/-- Insertion step of the createdAt-descending ordering. -/
def insertByCreatedAtDesc (u : DbUser) : List DbUser → List DbUser
  | [] => [u]
  | v :: t => if v.createdAt ≤ u.createdAt then u :: v :: t else v :: insertByCreatedAtDesc u t

/-- findMany with orderBy createdAt desc. -/
def orderByCreatedAtDesc : List DbUser → List DbUser
  | [] => []
  | u :: t => insertByCreatedAtDesc u (orderByCreatedAtDesc t)

set_option linter.unusedVariables false in
/-- GET /api/users handler of server.ts. The three query parameters arrive
on the request but the handler body never reads req.query: it returns the
full table, ordered by creation date descending, as a bare JSON array. The
catch branch (database failure, 500) is outside the pure model. -/
def serverGetUsers (page limit search : Option String) (db : List DbUser) : Nat × Json :=
  (200, Json.arr (JArr.ofList ((orderByCreatedAtDesc db).map dbUserToJson)))

/-- GET /api/users/:id handler of server.ts: the row when found, else 404
with an error body. -/
def serverGetUserById (id : String) (db : List DbUser) : Nat × Json :=
  match db.find? (fun u => u.id = id) with
  | some u => (200, dbUserToJson u)
  | none => (404, Json.obj (JObj.cons "error" (Json.str "User not found") JObj.nil))

/-- DELETE /api/users/:id handler of server.ts: prisma delete removes the
row and the handler answers with a message body; a missing row raises P2025,
answered with 404. Returns status, body and the table afterwards. -/
def serverDeleteUser (id : String) (db : List DbUser) : Nat × Json × List DbUser :=
  if (db.find? (fun u => u.id = id)).isSome then
    (200, Json.obj (JObj.cons "message" (Json.str "User deleted successfully") JObj.nil),
     db.filter (fun u => u.id ≠ id))
  else
    (404, Json.obj (JObj.cons "error" (Json.str "User not found") JObj.nil), db)

/-- Follows the spec's words (§6 table) for comparison with the handler: a
list-endpoint success body is an object with a data field holding an array
of profiles and a pagination field. -/
def specListBodyShape (j : Json) : Bool :=
  match j.getField "data", j.getField "pagination" with
  | some (Json.arr _), some _ => true
  | _, _ => false

/-! ## Client data model — lib/types.ts is not part of the sources; the
shapes below are read off their uses in App.tsx, UserProfileList.tsx and
lib/api.ts. -/

/-- User as the client holds it (fields as used across the components). -/
structure UserT where
  id : String
  fullName : String
  email : String
  phoneNumber : Option String
  bio : Option String
  avatarUrl : Option String
  dateOfBirth : Option String
  location : Option String
  deriving DecidableEq

/-- PaginationInfo as used in App.tsx and UserProfileList.tsx. -/
structure PaginationInfo where
  currentPage : Nat
  totalPages : Nat
  totalUsers : Nat
  limit : Nat
  hasNextPage : Bool
  hasPrevPage : Bool
  deriving DecidableEq

/-- PaginatedUsersResponse as used in App.tsx (response.data.data,
response.data.pagination). -/
structure PaginatedUsersResponse where
  data : List UserT
  pagination : PaginationInfo
  deriving DecidableEq

/-- API client result at the list type, as loadUsers consumes it. -/
structure ListApiResponse where
  data : PaginatedUsersResponse
  success : Bool
  message : String
  deriving DecidableEq

/-! ## Pagination coordinator — App.tsx (first document of
src/unnamed/part_001) -/

/-- List-page state the coordinator owns: the rendered result set and the
page descriptor. -/
structure AppPageState where
  users : List UserT
  pagination : PaginationInfo
  deriving DecidableEq

/-- Continuation of one loadUsers call once its response arrives: on
success the result set and page descriptor are replaced from the response;
on failure only a notification is raised and both are left intact. No
request sequence number is consulted. -/
def applyLoadUsersResponse (s : AppPageState) (r : ListApiResponse) : AppPageState :=
  if r.success then { users := r.data.data, pagination := r.data.pagination } else s

/-- Event-loop run of several in-flight loadUsers responses, applied in
arrival order. -/
def runArrivals (s : AppPageState) (rs : List ListApiResponse) : AppPageState :=
  rs.foldl applyLoadUsersResponse s

/-! ## Delete flow — App.tsx with lib/api.ts and server.ts -/

/-- Shared mutable state the delete flow can reach: the cache singleton and
the backend table. -/
structure AppWorld where
  cache : APICache
  db : List DbUser
  deriving DecidableEq

/-- userAPI.deleteUser against the live backend: the DELETE handler runs,
its outcome is wrapped by fetchWithErrorHandling and remapped to a boolean.
The function body of deleteUser contains no cache operation. -/
def userAPIDeleteUser (id : String) (w : AppWorld) : ApiResponse × AppWorld :=
  let res := serverDeleteUser id w.db
  (deleteUserClient (FetchOutcome.success res.1 res.2.1), { w with db := res.2.2 })

/-- handleDeleteUser of App.tsx up to the dispatch of the re-fetch: awaits
userAPI.deleteUser, and on success dispatches loadUsers(currentPage,
debouncedSearchQuery). Returns the world exactly when the re-fetch is
dispatched, and whether it is dispatched. -/
def handleDeleteUserStep (id : String) (w : AppWorld) : AppWorld × Bool :=
  let r := userAPIDeleteUser id w
  (r.2, r.1.success)

/-- loadUsers' network call, as dispatched by the coordinator: it invokes
userAPI.getAllUsers, which goes to fetch directly — no part of it reads the
cache, so it is a function of the backend table alone. -/
def loadUsersFetch (page limit search : Option String) (w : AppWorld) : ApiResponse :=
  let res := serverGetUsers page limit search w.db
  getAllUsersClient (FetchOutcome.success res.1 res.2)

/-! ## QR codec — QRCodeModal.tsx (src/unnamed/part_002) -/

/-- Transmissible field subset the QR envelope carries. -/
structure QRData where
  fullName : String
  email : String
  phoneNumber : String
  bio : String
  avatarUrl : String
  dateOfBirth : String
  location : String
  deriving DecidableEq

/-- Tagged envelope generateQRCode builds. -/
structure QRPayload where
  type : String
  version : String
  data : QRData
  deriving DecidableEq

/-- JavaScript string-or-empty default v || ''. -/
def jsOrEmpty : Option String → String
  | some s => s
  | none => ""

/-- dateOfBirth normalization of generateQRCode: truthy dates are cut at
the first T (bare calendar date), otherwise empty string. -/
def dobToQR : Option String → String
  | none => ""
  | some s => if s = "" then "" else (s.splitOn "T").headD ""

/-- qrData object of generateQRCode: the tagged envelope with absent
optional fields defaulted to empty strings. -/
def generateQRData (u : UserT) : QRPayload :=
  { type := "user-profile", version := "1.0",
    data :=
      { fullName := u.fullName, email := u.email,
        phoneNumber := jsOrEmpty u.phoneNumber, bio := jsOrEmpty u.bio,
        avatarUrl := jsOrEmpty u.avatarUrl, dateOfBirth := dobToQR u.dateOfBirth,
        location := jsOrEmpty u.location } }

/-- JSON value of the envelope, as JSON.parse recovers it on the scanning
side from the stringified payload the image carries (the qrcode library
transports the text verbatim). -/
def qrPayloadJson (p : QRPayload) : Json :=
  Json.obj (JObj.ofList
    [("type", .str p.type), ("version", .str p.version),
     ("data", Json.obj (JObj.ofList
       [("fullName", .str p.data.fullName), ("email", .str p.data.email),
        ("phoneNumber", .str p.data.phoneNumber), ("bio", .str p.data.bio),
        ("avatarUrl", .str p.data.avatarUrl), ("dateOfBirth", .str p.data.dateOfBirth),
        ("location", .str p.data.location)]))])

/-- Form-data record handleScanResult builds; fields keep their JavaScript
values (the code never converts them). -/
structure UserFormDataJ where
  fullName : Json
  email : Json
  phoneNumber : Json
  bio : Json
  avatarUrl : Json
  dateOfBirth : Json
  location : Json
  deriving DecidableEq

/-- JavaScript default v || d on a possibly-undefined value. -/
def jsOrJson (o : Option Json) (d : Json) : Json :=
  match o with
  | some v => if jsTruthy v then v else d
  | none => d

/-- handleScanResult of QRCodeModal.tsx on the parsed scan text: none is
the catch path (the scoped error message, no partial apply). The envelope
must carry type equal to user-profile and a truthy data value; fields
default to empty strings; a falsy fullName or email rejects the scan. -/
def handleScanResult (j : Json) : Option UserFormDataJ :=
  match j.getField "type", j.getField "data" with
  | some (Json.str t), some d =>
    if t = "user-profile" then
      if jsTruthy d then
        let ud : UserFormDataJ :=
          { fullName := jsOrJson (d.getField "fullName") (Json.str ""),
            email := jsOrJson (d.getField "email") (Json.str ""),
            phoneNumber := jsOrJson (d.getField "phoneNumber") (Json.str ""),
            bio := jsOrJson (d.getField "bio") (Json.str ""),
            avatarUrl := jsOrJson (d.getField "avatarUrl") (Json.str ""),
            dateOfBirth := jsOrJson (d.getField "dateOfBirth") (Json.str ""),
            location := jsOrJson (d.getField "location") (Json.str "") }
        if jsTruthy ud.fullName then
          if jsTruthy ud.email then some ud else none
        else none
      else none
    else none
  | _, _ => none

/-! ## Proof-support definitions and concrete scenario data -/

/-- One recorded set call against the cache store. -/
structure SetOp where
  endpoint : String
  params : Option Json
  data : Json
  ttl : Nat
  now : Nat
  deriving DecidableEq

/-- Replay of a sequence of set calls. -/
def applySetOps (c : APICache) : List SetOp → APICache
  | [] => c
  | op :: t => applySetOps (APICache.set op.now op.endpoint op.data op.params op.ttl c) t

/-- Well-formedness of the memory layer kept by every set: bounded size and
no empty key (every key the store writes is a generateKey image, which
starts with the reserved prefix). -/
def cacheMemOk (c : APICache) : Prop :=
  c.memoryCache.length ≤ APICache.MAX_MEMORY_ITEMS ∧ ∀ kv ∈ c.memoryCache, kv.1 ≠ ""

/-- One cache entry used by concrete scenarios. -/
def scenarioEntry : CacheEntry :=
  { data := Json.null, timestamp := 0, ttl := 1000 }

/-- Memory layer of exactly MAX_MEMORY_ITEMS distinct nonempty keys, in
insertion order k0, k1, ..., k99. -/
def fifoMem : List (String × CacheEntry) :=
  (List.range 100).map (fun i => ("k" ++ toString i, scenarioEntry))

/-- Tail of fifoMem. -/
def fifoRest : List (String × CacheEntry) :=
  (List.range 99).map (fun i => ("k" ++ toString (i + 1), scenarioEntry))

/-- A full cache at capacity. -/
def fifoCache : APICache :=
  { memoryCache := fifoMem, localStore := [] }

/-- Backend rows for concrete scenarios: userA is the newer row. -/
def dbUserA : DbUser :=
  { id := "a1", fullName := "Ada A", email := "ada@example.com",
    phoneNumber := none, bio := none, avatarUrl := none, dateOfBirth := none,
    location := none, createdAt := 2, updatedAt := 2 }

/-- Older backend row. -/
def dbUserB : DbUser :=
  { id := "b2", fullName := "Bob B", email := "bob@example.com",
    phoneNumber := none, bio := none, avatarUrl := none, dateOfBirth := none,
    location := none, createdAt := 1, updatedAt := 1 }

/-- Cached list-page value mentioning dbUserA, as a page result would be
cached. -/
def cachedPageJson : Json :=
  Json.arr (JArr.cons (dbUserToJson dbUserA) JArr.nil)

/-- Params value of the cached page. -/
def cachedPageParams : Json :=
  Json.obj (JObj.cons "page" (Json.num 1) JObj.nil)

/-- Client-side users for the coordinator scenarios. -/
def clientUserA : UserT :=
  { id := "a1", fullName := "Ada A", email := "ada@example.com",
    phoneNumber := none, bio := none, avatarUrl := none, dateOfBirth := none,
    location := none }

/-- Second client-side user. -/
def clientUserB : UserT :=
  { id := "b2", fullName := "Bob B", email := "bob@example.com",
    phoneNumber := none, bio := none, avatarUrl := none, dateOfBirth := none,
    location := none }

/-- Page descriptor of page 1 in the two-page scenario. -/
def pagDescr1 : PaginationInfo :=
  { currentPage := 1, totalPages := 2, totalUsers := 2, limit := 20,
    hasNextPage := true, hasPrevPage := false }

/-- Page descriptor of page 2 in the two-page scenario. -/
def pagDescr2 : PaginationInfo :=
  { currentPage := 2, totalPages := 2, totalUsers := 2, limit := 20,
    hasNextPage := false, hasPrevPage := true }

/-- Successful list response carrying page 1. -/
def respPage1 : ListApiResponse :=
  { data := { data := [clientUserA], pagination := pagDescr1 },
    success := true, message := "Operation completed successfully" }

/-- Successful list response carrying page 2. -/
def respPage2 : ListApiResponse :=
  { data := { data := [clientUserB], pagination := pagDescr2 },
    success := true, message := "Operation completed successfully" }

/-- Concrete wrapped operation always answering a success-marked object. -/
def constSuccessOp : List Json → Json :=
  fun _ => Json.obj (JObj.cons "success" (Json.bool true) JObj.nil)

/-- Concrete wrapped operation always answering a failure-marked object. -/
def constFailOp : List Json → Json :=
  fun _ => Json.obj (JObj.cons "success" (Json.bool false) JObj.nil)

/-- Initial coordinator state of the scenarios. -/
def pageState0 : AppPageState :=
  { users := [],
    pagination :=
      { currentPage := 1, totalPages := 1, totalUsers := 0, limit := 20,
        hasNextPage := false, hasPrevPage := false } }

/-! ## General lemmas about the map model -/

theorem mapGet_mapSet_self {β : Type} (k : String) (v : β) (m : List (String × β)) :
    mapGet k (mapSet k v m) = some v := by
  induction m with
  | nil => simp [mapGet, mapSet, List.find?]
  | cons hd t ih =>
    obtain ⟨k1, v1⟩ := hd
    by_cases h : k1 = k
    · simp [mapGet, mapSet, h, List.find?]
    · simpa [mapGet, mapSet, h, List.find?] using ih

theorem mapGet_cons_ne {β : Type} {k k1 : String} (h : k ≠ k1) (v1 : β)
    (t : List (String × β)) : mapGet k ((k1, v1) :: t) = mapGet k t := by
  simp [mapGet, List.find?, Ne.symm h]

theorem mapGet_cons_self {β : Type} (k : String) (v : β) (t : List (String × β)) :
    mapGet k ((k, v) :: t) = some v := by
  simp [mapGet, List.find?]

theorem mapGet_mapSet_ne {β : Type} {k k1 : String} (h : k ≠ k1) (v : β)
    (m : List (String × β)) : mapGet k (mapSet k1 v m) = mapGet k m := by
  induction m with
  | nil =>
    show mapGet k [(k1, v)] = mapGet k []
    rw [mapGet_cons_ne h]
  | cons hd t ih =>
    obtain ⟨k2, v2⟩ := hd
    by_cases h2 : k2 = k1
    · subst h2
      have hset : mapSet k2 v ((k2, v2) :: t) = (k2, v) :: t := by
        simp [mapSet]
      rw [hset, mapGet_cons_ne h, mapGet_cons_ne h]
    · simp only [mapSet, if_neg h2]
      by_cases h3 : k = k2
      · subst h3
        rw [mapGet_cons_self, mapGet_cons_self]
      · rw [mapGet_cons_ne h3, mapGet_cons_ne h3, ih]

theorem mapGet_eq_none_of_not_mem {β : Type} {k : String} {m : List (String × β)}
    (h : k ∉ m.map Prod.fst) : mapGet k m = none := by
  induction m with
  | nil => rfl
  | cons hd t ih =>
    obtain ⟨k1, v1⟩ := hd
    simp only [List.map, List.mem_cons] at h
    push_neg at h
    rw [mapGet_cons_ne h.1]
    exact ih h.2

theorem mapDelete_cons_self {β : Type} (k : String) (v : β) (t : List (String × β)) :
    mapDelete k ((k, v) :: t) = t := by
  simp [mapDelete]

theorem length_mapSet_le {β : Type} (k : String) (v : β) (m : List (String × β)) :
    (mapSet k v m).length ≤ m.length + 1 := by
  induction m with
  | nil => simp [mapSet]
  | cons hd t ih =>
    obtain ⟨k1, v1⟩ := hd
    by_cases h : k1 = k
    · simp [mapSet, h]
    · simp only [mapSet, if_neg h, List.length_cons]
      omega

theorem mem_mapSet {β : Type} {kv : String × β} {k : String} {v : β}
    {m : List (String × β)} (h : kv ∈ mapSet k v m) : kv = (k, v) ∨ kv ∈ m := by
  induction m with
  | nil => simpa [mapSet] using h
  | cons hd t ih =>
    obtain ⟨k1, v1⟩ := hd
    by_cases h1 : k1 = k
    · simp only [mapSet, if_pos h1, List.mem_cons] at h
      rcases h with h | h
      · exact Or.inl h
      · exact Or.inr (List.mem_cons_of_mem _ h)
    · simp only [mapSet, if_neg h1, List.mem_cons] at h
      rcases h with h | h
      · exact Or.inr (by simp [h])
      · rcases ih h with h2 | h2
        · exact Or.inl h2
        · exact Or.inr (List.mem_cons_of_mem _ h2)

/-! ## General lemmas about the cache store -/

theorem generateKey_ne_empty (e : String) (p : Option Json) :
    APICache.generateKey e p ≠ "" := by
  intro h
  have hlen := congrArg String.length h
  have h10 : ("api_cache_" : String).length = 10 := rfl
  have h0 : ("" : String).length = 0 := rfl
  simp only [APICache.generateKey, String.length_append, h10, h0] at hlen
  omega

theorem cache_set_memoryCache (now : Nat) (e : String) (v : Json) (p : Option Json)
    (ttl : Nat) (c : APICache) :
    ∃ m, (APICache.set now e v p ttl c).memoryCache =
      mapSet (APICache.generateKey e p) ⟨v, now, ttl⟩ m := by
  exact ⟨_, rfl⟩

theorem cache_get_memHit {e : String} {p : Option Json} {c : APICache} {now : Nat}
    {ent : CacheEntry}
    (h : mapGet (APICache.generateKey e p) c.memoryCache = some ent)
    (hv : APICache.isValidEntry now ent = true) :
    APICache.get now e p c = (some ent.data, c) := by
  simp [APICache.get, h, hv]

theorem cache_get_bothExpired {e : String} {p : Option Json} {c : APICache} {now : Nat}
    {em el : CacheEntry}
    (hm : mapGet (APICache.generateKey e p) c.memoryCache = some em)
    (hvm : APICache.isValidEntry now em = false)
    (hl : mapGet (APICache.generateKey e p) c.localStore = some el)
    (hvl : APICache.isValidEntry now el = false) :
    APICache.get now e p c =
      (none, { c with localStore := mapDelete (APICache.generateKey e p) c.localStore }) := by
  simp [APICache.get, hm, hvm, hl, hvl]

theorem cache_set_memHit (now : Nat) (e : String) (v : Json) (p : Option Json)
    (ttl : Nat) (c : APICache) :
    mapGet (APICache.generateKey e p) (APICache.set now e v p ttl c).memoryCache =
      some { data := v, timestamp := now, ttl := ttl } := by
  simp only [APICache.set]
  exact mapGet_mapSet_self _ _ _

theorem cache_set_lsHit (now : Nat) (e : String) (v : Json) (p : Option Json)
    (ttl : Nat) (c : APICache) (hsmall : (stringify v).length < 100000) :
    mapGet (APICache.generateKey e p) (APICache.set now e v p ttl c).localStore =
      some { data := v, timestamp := now, ttl := ttl } := by
  simp only [APICache.set, if_pos hsmall]
  exact mapGet_mapSet_self _ _ _

/-- C4: for every endpoint, params and positive ttl — with the value inside
the store's 100000-character localStorage persistence bound — a set followed
by an immediate get returns the stored value; at any time from ttl onwards
the get returns absent, and that absent result coincides with the result of
the same get on a never-written cache. -/
theorem cache_roundtrip_and_expiry (e : String) (p : Option Json) (v : Json)
    (ttl now t : Nat) (c : APICache) (httl : 0 < ttl)
    (hsmall : (stringify v).length < 100000) (ht : now + ttl ≤ t) :
    (APICache.get now e p (APICache.set now e v p ttl c)).1 = some v ∧
    (APICache.get t e p (APICache.set now e v p ttl c)).1 = none ∧
    (APICache.get t e p (APICache.set now e v p ttl c)).1 =
      (APICache.get t e p APICache.empty).1 := by
  have hkm := cache_set_memHit now e v p ttl c
  have hkl := cache_set_lsHit now e v p ttl c hsmall
  have hvalid : APICache.isValidEntry now { data := v, timestamp := now, ttl := ttl } = true := by
    simp only [APICache.isValidEntry]
    simp only [decide_eq_true_eq]
    omega
  have hexpired : APICache.isValidEntry t { data := v, timestamp := now, ttl := ttl } = false := by
    simp only [APICache.isValidEntry]
    simp only [decide_eq_false_iff_not]
    omega
  have hempty : (APICache.get t e p APICache.empty).1 = none := rfl
  refine ⟨?_, ?_, ?_⟩
  · rw [cache_get_memHit hkm hvalid]
  · rw [cache_get_bothExpired hkm hexpired hkl hexpired]
  · rw [cache_get_bothExpired hkm hexpired hkl hexpired, hempty]

/-- Concrete instance of the C4 theorem, hypotheses discharged by
computation. -/
theorem cache_roundtrip_and_expiry_witness :
    0 < 5 ∧ (stringify (Json.str "x")).length < 100000 ∧ 0 + 5 ≤ 10 ∧
    ((APICache.get 0 "users" none (APICache.set 0 "users" (Json.str "x") none 5 APICache.empty)).1 =
        some (Json.str "x") ∧
      (APICache.get 10 "users" none (APICache.set 0 "users" (Json.str "x") none 5 APICache.empty)).1 =
        none ∧
      (APICache.get 10 "users" none (APICache.set 0 "users" (Json.str "x") none 5 APICache.empty)).1 =
        (APICache.get 10 "users" none APICache.empty).1) :=
  ⟨by decide, by decide, by decide,
   cache_roundtrip_and_expiry "users" none (Json.str "x") 5 0 10 APICache.empty
     (by decide) (by decide) (by decide)⟩

/-- C5 counterexample: after set at time 0 with ttl 1, a get at time 1 finds
the entry expired and returns absent, yet the expired entry is still present
in the fast-access (memory) layer after the read — it is evicted from the
slow-access layer only, refuting eviction from both layers. -/
theorem cache_get_expired_keeps_memory_counterexample :
    (APICache.get 1 "users" none
        (APICache.set 0 "users" (Json.str "x") none 1 APICache.empty)).1 = none ∧
    mapGet (APICache.generateKey "users" none)
        ((APICache.get 1 "users" none
          (APICache.set 0 "users" (Json.str "x") none 1 APICache.empty)).2).memoryCache =
      some { data := Json.str "x", timestamp := 0, ttl := 1 } ∧
    mapGet (APICache.generateKey "users" none)
        ((APICache.get 1 "users" none
          (APICache.set 0 "users" (Json.str "x") none 1 APICache.empty)).2).localStore =
      none := by
  decide

/-- C5 (amended): when get meets an entry that is expired in both layers, it
never returns the value and removes the slow-access (localStorage) copy as
part of the read, but the fast-access (memory) copy is left in place — the
memory layer is returned unchanged. -/
theorem cache_get_expired_behavior (e : String) (p : Option Json) (c : APICache)
    (t : Nat) (em el : CacheEntry)
    (hm : mapGet (APICache.generateKey e p) c.memoryCache = some em)
    (hvm : APICache.isValidEntry t em = false)
    (hl : mapGet (APICache.generateKey e p) c.localStore = some el)
    (hvl : APICache.isValidEntry t el = false) :
    APICache.get t e p c =
      (none, { memoryCache := c.memoryCache
               localStore := mapDelete (APICache.generateKey e p) c.localStore }) := by
  rw [cache_get_bothExpired hm hvm hl hvl]

/-- Concrete instance of the amended C5 theorem, hypotheses discharged by
computation. -/
theorem cache_get_expired_behavior_witness :
    mapGet (APICache.generateKey "users" none)
        (APICache.set 0 "users" (Json.str "x") none 1 APICache.empty).memoryCache =
      some { data := Json.str "x", timestamp := 0, ttl := 1 } ∧
    APICache.isValidEntry 1 { data := Json.str "x", timestamp := 0, ttl := 1 } = false ∧
    mapGet (APICache.generateKey "users" none)
        (APICache.set 0 "users" (Json.str "x") none 1 APICache.empty).localStore =
      some { data := Json.str "x", timestamp := 0, ttl := 1 } ∧
    APICache.get 1 "users" none (APICache.set 0 "users" (Json.str "x") none 1 APICache.empty) =
      (none, { memoryCache :=
                 (APICache.set 0 "users" (Json.str "x") none 1 APICache.empty).memoryCache
               localStore :=
                 mapDelete (APICache.generateKey "users" none)
                   (APICache.set 0 "users" (Json.str "x") none 1 APICache.empty).localStore }) :=
  ⟨by decide, by decide, by decide,
   cache_get_expired_behavior "users" none
     (APICache.set 0 "users" (Json.str "x") none 1 APICache.empty) 1
     { data := Json.str "x", timestamp := 0, ttl := 1 }
     { data := Json.str "x", timestamp := 0, ttl := 1 }
     (by decide) (by decide) (by decide) (by decide)⟩

theorem mem_mapDelete {β : Type} {kv : String × β} {k : String}
    {m : List (String × β)} (h : kv ∈ mapDelete k m) : kv ∈ m := by
  induction m with
  | nil => simp [mapDelete] at h
  | cons hd t ih =>
    obtain ⟨k1, v1⟩ := hd
    by_cases h1 : k1 = k
    · simp only [mapDelete, if_pos h1] at h
      exact List.mem_cons_of_mem _ h
    · simp only [mapDelete, if_neg h1, List.mem_cons] at h
      rcases h with h | h
      · simp [h]
      · exact List.mem_cons_of_mem _ (ih h)

theorem evictIfFull_not_full {mem : List (String × CacheEntry)}
    (h : ¬ APICache.MAX_MEMORY_ITEMS ≤ mem.length) : evictIfFull mem = mem := by
  unfold evictIfFull
  rw [if_neg h]

theorem evictIfFull_full_cons {k0 : String} {e0 : CacheEntry}
    {t : List (String × CacheEntry)}
    (h : APICache.MAX_MEMORY_ITEMS ≤ ((k0, e0) :: t).length) (hk : k0 ≠ "") :
    evictIfFull ((k0, e0) :: t) = t := by
  unfold evictIfFull
  rw [if_pos h]
  show (if k0 = "" then (k0, e0) :: t else mapDelete k0 ((k0, e0) :: t)) = t
  rw [if_neg hk, mapDelete_cons_self]

theorem evictIfFull_full_cons_emptyKey {e0 : CacheEntry}
    {t : List (String × CacheEntry)}
    (h : APICache.MAX_MEMORY_ITEMS ≤ (("", e0) :: t).length) :
    evictIfFull (("", e0) :: t) = ("", e0) :: t := by
  unfold evictIfFull
  rw [if_pos h]
  show (if ("" : String) = "" then ("", e0) :: t else mapDelete "" (("", e0) :: t)) =
    ("", e0) :: t
  rw [if_pos rfl]

theorem mem_evictIfFull {kv : String × CacheEntry}
    {mem : List (String × CacheEntry)} (h : kv ∈ evictIfFull mem) : kv ∈ mem := by
  by_cases hfull : APICache.MAX_MEMORY_ITEMS ≤ mem.length
  · cases mem with
    | nil => simp [evictIfFull] at h
    | cons hd t =>
      obtain ⟨k0, e0⟩ := hd
      by_cases hk : k0 = ""
      · subst hk
        rw [evictIfFull_full_cons_emptyKey hfull] at h
        exact h
      · rw [evictIfFull_full_cons hfull hk] at h
        exact List.mem_cons_of_mem _ h
  · rw [evictIfFull_not_full hfull] at h
    exact h

theorem length_evictIfFull_le (mem : List (String × CacheEntry)) :
    (evictIfFull mem).length ≤ mem.length := by
  by_cases hfull : APICache.MAX_MEMORY_ITEMS ≤ mem.length
  · cases mem with
    | nil => simp [evictIfFull]
    | cons hd t =>
      obtain ⟨k0, e0⟩ := hd
      by_cases hk : k0 = ""
      · subst hk
        rw [evictIfFull_full_cons_emptyKey hfull]
      · rw [evictIfFull_full_cons hfull hk]
        simp
  · rw [evictIfFull_not_full hfull]

theorem length_evictIfFull_lt (mem : List (String × CacheEntry))
    (hfull : APICache.MAX_MEMORY_ITEMS ≤ mem.length)
    (hkeys : ∀ kv ∈ mem, kv.1 ≠ "") :
    (evictIfFull mem).length + 1 ≤ mem.length := by
  cases mem with
  | nil => exact absurd hfull (by decide)
  | cons hd t =>
    obtain ⟨k0, e0⟩ := hd
    have hk : k0 ≠ "" := hkeys (k0, e0) (List.mem_cons_self _ _)
    rw [evictIfFull_full_cons hfull hk]
    simp

theorem cache_set_memOk (now : Nat) (e : String) (v : Json) (p : Option Json)
    (ttl : Nat) (c : APICache) (h : cacheMemOk c) :
    cacheMemOk (APICache.set now e v p ttl c) := by
  obtain ⟨hlen, hkeys⟩ := h
  constructor
  · show (mapSet (APICache.generateKey e p) { data := v, timestamp := now, ttl := ttl }
      (evictIfFull c.memoryCache)).length ≤ APICache.MAX_MEMORY_ITEMS
    have h1 := length_mapSet_le (APICache.generateKey e p)
      ({ data := v, timestamp := now, ttl := ttl } : CacheEntry) (evictIfFull c.memoryCache)
    by_cases hfull : APICache.MAX_MEMORY_ITEMS ≤ c.memoryCache.length
    · have h2 := length_evictIfFull_lt c.memoryCache hfull hkeys
      omega
    · have h2 := length_evictIfFull_le c.memoryCache
      omega
  · intro kv hkv
    have hkv2 : kv ∈ mapSet (APICache.generateKey e p)
        { data := v, timestamp := now, ttl := ttl } (evictIfFull c.memoryCache) := hkv
    rcases mem_mapSet hkv2 with h | h
    · rw [h]
      exact generateKey_ne_empty e p
    · exact hkeys kv (mem_evictIfFull h)

theorem applySetOps_memOk (ops : List SetOp) (c : APICache) (h : cacheMemOk c) :
    cacheMemOk (applySetOps c ops) := by
  induction ops generalizing c with
  | nil => simpa [applySetOps] using h
  | cons op t ih =>
    simp only [applySetOps]
    exact ih _ (cache_set_memOk _ _ _ _ _ _ h)

theorem cacheMemOk_empty : cacheMemOk APICache.empty := by
  constructor
  · show (0 : Nat) ≤ 100
    omega
  · intro kv hkv
    simp [APICache.empty] at hkv

/-- C6: after every sequence of set operations starting from the fresh
store, the fast-access layer holds at most MAX_MEMORY_ITEMS (100) entries;
and a set against a full fast-access layer with well-formed state (distinct
nonempty keys) evicts exactly the least-recently-inserted entry — the head
of the Map's insertion order — leaves every other existing entry untouched,
writes the new entry, and stays within capacity. -/
theorem cache_capacity_and_fifo :
    (∀ ops : List SetOp,
      (applySetOps APICache.empty ops).memoryCache.length ≤ APICache.MAX_MEMORY_ITEMS) ∧
    (∀ (c : APICache) (e : String) (p : Option Json) (v : Json) (ttl now : Nat)
      (k0 : String) (e0 : CacheEntry) (rest : List (String × CacheEntry)),
      c.memoryCache = (k0, e0) :: rest →
      c.memoryCache.length = APICache.MAX_MEMORY_ITEMS →
      (c.memoryCache.map Prod.fst).Nodup →
      k0 ≠ "" →
      (APICache.set now e v p ttl c).memoryCache.length ≤ APICache.MAX_MEMORY_ITEMS ∧
      mapGet k0 (APICache.set now e v p ttl c).memoryCache =
        (if k0 = APICache.generateKey e p
          then some { data := v, timestamp := now, ttl := ttl } else none) ∧
      (∀ k, k ≠ k0 →
        mapGet k (APICache.set now e v p ttl c).memoryCache =
          (if k = APICache.generateKey e p
            then some { data := v, timestamp := now, ttl := ttl }
            else mapGet k c.memoryCache))) := by
  constructor
  · intro ops
    exact (applySetOps_memOk ops APICache.empty cacheMemOk_empty).1
  · intro c e p v ttl now k0 e0 rest h1 h2 h3 h4
    have hfull : APICache.MAX_MEMORY_ITEMS ≤ c.memoryCache.length := le_of_eq h2.symm
    have hfull2 : APICache.MAX_MEMORY_ITEMS ≤ ((k0, e0) :: rest).length := h1 ▸ hfull
    have hev : evictIfFull c.memoryCache = rest := by
      rw [h1]
      simp only [evictIfFull, if_pos hfull2, List.head?_cons, if_neg h4, mapDelete_cons_self]
    have hmem : (APICache.set now e v p ttl c).memoryCache =
        mapSet (APICache.generateKey e p) { data := v, timestamp := now, ttl := ttl } rest := by
      show mapSet _ _ (evictIfFull c.memoryCache) = _
      rw [hev]
    have hrest : rest.length + 1 = APICache.MAX_MEMORY_ITEMS := by
      rw [h1] at h2
      simpa using h2
    refine ⟨?_, ?_, ?_⟩
    · rw [hmem]
      have := length_mapSet_le (APICache.generateKey e p)
        ({ data := v, timestamp := now, ttl := ttl } : CacheEntry) rest
      omega
    · rw [hmem]
      by_cases hk : k0 = APICache.generateKey e p
      · rw [if_pos hk, hk, mapGet_mapSet_self]
      · rw [if_neg hk, mapGet_mapSet_ne hk]
        have hnot : k0 ∉ rest.map Prod.fst := by
          rw [h1] at h3
          simp only [List.map, List.nodup_cons] at h3
          exact h3.1
        exact mapGet_eq_none_of_not_mem hnot
    · intro k hk
      rw [hmem]
      by_cases hkey : k = APICache.generateKey e p
      · rw [if_pos hkey, hkey, mapGet_mapSet_self]
      · rw [if_neg hkey, mapGet_mapSet_ne hkey, h1, mapGet_cons_ne hk]

/-- Concrete instance of the C6 theorem: a one-set sequence stays in bounds,
and a set against the concrete full cache evicts exactly the oldest key k0,
leaves k5 untouched, within capacity. -/
theorem cache_capacity_and_fifo_witness :
    (applySetOps APICache.empty
        [{ endpoint := "u", params := none, data := Json.null, ttl := 5, now := 0 }]).memoryCache.length ≤
      APICache.MAX_MEMORY_ITEMS ∧
    fifoCache.memoryCache = ("k0", scenarioEntry) :: fifoRest ∧
    fifoCache.memoryCache.length = APICache.MAX_MEMORY_ITEMS ∧
    (fifoCache.memoryCache.map Prod.fst).Nodup ∧
    "k0" ≠ "" ∧
    (APICache.set 7 "u2" (Json.str "w") none 9 fifoCache).memoryCache.length ≤
      APICache.MAX_MEMORY_ITEMS ∧
    mapGet "k0" (APICache.set 7 "u2" (Json.str "w") none 9 fifoCache).memoryCache =
      (if "k0" = APICache.generateKey "u2" none
        then some { data := Json.str "w", timestamp := 7, ttl := 9 } else none) ∧
    mapGet "k5" (APICache.set 7 "u2" (Json.str "w") none 9 fifoCache).memoryCache =
      (if "k5" = APICache.generateKey "u2" none
        then some { data := Json.str "w", timestamp := 7, ttl := 9 }
        else mapGet "k5" fifoCache.memoryCache) :=
  ⟨cache_capacity_and_fifo.1 _,
   by decide, by decide, by decide, by decide,
   (cache_capacity_and_fifo.2 fifoCache "u2" none (Json.str "w") 9 7 "k0" scenarioEntry fifoRest
     (by decide) (by decide) (by decide) (by decide)).1,
   (cache_capacity_and_fifo.2 fifoCache "u2" none (Json.str "w") 9 7 "k0" scenarioEntry fifoRest
     (by decide) (by decide) (by decide) (by decide)).2.1,
   (cache_capacity_and_fifo.2 fifoCache "u2" none (Json.str "w") 9 7 "k0" scenarioEntry fifoRest
     (by decide) (by decide) (by decide) (by decide)).2.2 "k5" (by decide)⟩

theorem withCache_cacheMiss_or_falsy (fn : List Json → Json) (e : String)
    (ttl : Option Nat) (t : Nat) (args : List Json) (d : APICache)
    (hfail : isCacheableSuccess (fn args) = false) :
    (withCache fn e ttl t args d).cache = (APICache.get t e (withCacheParams args) d).2 := by
  simp only [withCache]
  cases hg1 : (APICache.get t e (withCacheParams args) d).1 with
  | none => simp [hfail]
  | some v =>
    by_cases hv : jsTruthy v
    · simp [hv]
    · simp [hv, hfail]

theorem isCacheableSuccess_truthy {j : Json} (h : isCacheableSuccess j = true) :
    jsTruthy j = true := by
  (cases j <;> simp [isCacheableSuccess] at h)
  rfl

/-- C7: the cache-wrapping decorator never stores a failure — when the
operation's result lacks a truthy success marker the cache after the call is
exactly the cache after the lookup, with no write; on a cache miss the first
call invokes the underlying operation with the caller's argument list
unchanged, returns its result and stores it when success-marked; and a
second call with the identical arguments within the ttl is answered from the
cache without invoking the operation again and leaves the cache unchanged. -/
theorem withCache_contract (fn : List Json → Json) (e : String) (ttl : Option Nat)
    (now1 now2 : Nat) (args : List Json) (c : APICache)
    (hmiss : (APICache.get now1 e (withCacheParams args) c).1 = none)
    (hsucc : isCacheableSuccess (fn args) = true)
    (hfresh : now2 - now1 < ttl.getD APICache.DEFAULT_TTL) :
    (∀ (g : List Json → Json) (t : Nat) (d : APICache),
      isCacheableSuccess (g args) = false →
      (withCache g e ttl t args d).cache = (APICache.get t e (withCacheParams args) d).2) ∧
    (withCache fn e ttl now1 args c).invoked = true ∧
    (withCache fn e ttl now1 args c).result = fn args ∧
    (withCache fn e ttl now2 args ((withCache fn e ttl now1 args c).cache)).invoked = false ∧
    (withCache fn e ttl now2 args ((withCache fn e ttl now1 args c).cache)).result = fn args ∧
    (withCache fn e ttl now2 args ((withCache fn e ttl now1 args c).cache)).cache =
      (withCache fn e ttl now1 args c).cache := by
  have h1 : withCache fn e ttl now1 args c =
      { result := fn args,
        cache := APICache.set now1 e (fn args) (withCacheParams args)
          (ttl.getD APICache.DEFAULT_TTL) (APICache.get now1 e (withCacheParams args) c).2,
        invoked := true } := by
    simp only [withCache]
    simp [hmiss, hsucc]
  have hvalid : APICache.isValidEntry now2
      { data := fn args, timestamp := now1, ttl := ttl.getD APICache.DEFAULT_TTL } = true := by
    simp only [APICache.isValidEntry, decide_eq_true_eq]
    exact hfresh
  have hget2 : APICache.get now2 e (withCacheParams args)
      ((withCache fn e ttl now1 args c).cache) =
      (some (fn args), (withCache fn e ttl now1 args c).cache) := by
    rw [h1]
    exact cache_get_memHit (cache_set_memHit _ _ _ _ _ _) hvalid
  have h2 : ∀ d : APICache,
      APICache.get now2 e (withCacheParams args) d = (some (fn args), d) →
      withCache fn e ttl now2 args d =
        { result := fn args, cache := d, invoked := false } := by
    intro d hd
    simp only [withCache]
    rw [show (APICache.get now2 e (withCacheParams args) d).1 = some (fn args) from by rw [hd]]
    rw [show (APICache.get now2 e (withCacheParams args) d).2 = d from by rw [hd]]
    simp [isCacheableSuccess_truthy hsucc]
  have h3 := h2 ((withCache fn e ttl now1 args c).cache) hget2
  refine ⟨fun g t d hf => withCache_cacheMiss_or_falsy g e ttl t args d hf, ?_, ?_, ?_, ?_, ?_⟩
  · rw [h1]
  · rw [h1]
  · rw [h3]
  · rw [h3]
  · rw [h3]

/-- Concrete instance of the C7 theorem: miss, success-marked result and
freshness discharged by computation; conclusions instantiated at the
concrete operations. -/
theorem withCache_contract_witness :
    (APICache.get 0 "op" (withCacheParams [Json.num 1]) APICache.empty).1 = none ∧
    isCacheableSuccess (constSuccessOp [Json.num 1]) = true ∧
    1 - 0 < (none : Option Nat).getD APICache.DEFAULT_TTL ∧
    ((withCache constSuccessOp "op" none 0 [Json.num 1] APICache.empty).invoked = true ∧
     (withCache constSuccessOp "op" none 0 [Json.num 1] APICache.empty).result =
       constSuccessOp [Json.num 1] ∧
     (withCache constSuccessOp "op" none 1 [Json.num 1]
        ((withCache constSuccessOp "op" none 0 [Json.num 1] APICache.empty).cache)).invoked =
       false ∧
     (withCache constSuccessOp "op" none 1 [Json.num 1]
        ((withCache constSuccessOp "op" none 0 [Json.num 1] APICache.empty).cache)).result =
       constSuccessOp [Json.num 1] ∧
     (withCache constSuccessOp "op" none 1 [Json.num 1]
        ((withCache constSuccessOp "op" none 0 [Json.num 1] APICache.empty).cache)).cache =
       (withCache constSuccessOp "op" none 0 [Json.num 1] APICache.empty).cache) ∧
    isCacheableSuccess (constFailOp [Json.num 1]) = false ∧
    (withCache constFailOp "op" none 3 [Json.num 1] APICache.empty).cache =
      (APICache.get 3 "op" (withCacheParams [Json.num 1]) APICache.empty).2 :=
  ⟨by decide, by decide, by decide,
   ⟨(withCache_contract constSuccessOp "op" none 0 1 [Json.num 1] APICache.empty
       (by decide) (by decide) (by decide)).2.1,
    (withCache_contract constSuccessOp "op" none 0 1 [Json.num 1] APICache.empty
       (by decide) (by decide) (by decide)).2.2.1,
    (withCache_contract constSuccessOp "op" none 0 1 [Json.num 1] APICache.empty
       (by decide) (by decide) (by decide)).2.2.2.1,
    (withCache_contract constSuccessOp "op" none 0 1 [Json.num 1] APICache.empty
       (by decide) (by decide) (by decide)).2.2.2.2.1,
    (withCache_contract constSuccessOp "op" none 0 1 [Json.num 1] APICache.empty
       (by decide) (by decide) (by decide)).2.2.2.2.2⟩,
   by decide,
   (withCache_contract constSuccessOp "op" none 0 1 [Json.num 1] APICache.empty
       (by decide) (by decide) (by decide)).1 constFailOp 3 APICache.empty (by decide)⟩

theorem handleScanResult_badTag {j : Json}
    (hty : j.getField "type" ≠ some (Json.str "user-profile")) :
    handleScanResult j = none := by
  unfold handleScanResult
  cases hj : j.getField "type" with
  | none => rfl
  | some v =>
    cases v with
    | str s =>
      cases hd : j.getField "data" with
      | none => rfl
      | some d =>
        have hs : s ≠ "user-profile" := by
          intro h
          exact hty (by rw [hj, h])
        simp [hs]
    | null => rfl
    | bool b => rfl
    | num n => rfl
    | arr xs => rfl
    | obj fs => rfl

theorem handleScanResult_noEmail {j d : Json}
    (hd : j.getField "data" = some d)
    (he : d.getField "email" = none ∨ d.getField "email" = some (Json.str "")) :
    handleScanResult j = none := by
  by_cases hty : j.getField "type" = some (Json.str "user-profile")
  · have hemail2 : jsOrJson (d.getField "email") (Json.str "") = Json.str "" := by
      rcases he with h | h <;> simp [h, jsOrJson, jsTruthy]
    unfold handleScanResult
    rw [hty, hd]
    simp [hemail2, jsTruthy]
  · exact handleScanResult_badTag hty

/-- C8: encoding a profile whose optional fields are all empty and decoding
the resulting payload succeeds and yields the original fullName and email
with empty strings everywhere else; decoding any payload whose tag differs
from user-profile fails; decoding any payload whose embedded data lacks a
non-empty email fails, even when fullName is present. -/
theorem qr_roundtrip_and_validation :
    (∀ u : UserT, u.phoneNumber = none → u.bio = none → u.avatarUrl = none →
      u.dateOfBirth = none → u.location = none → u.fullName ≠ "" → u.email ≠ "" →
      handleScanResult (qrPayloadJson (generateQRData u)) =
        some { fullName := Json.str u.fullName, email := Json.str u.email,
               phoneNumber := Json.str "", bio := Json.str "", avatarUrl := Json.str "",
               dateOfBirth := Json.str "", location := Json.str "" }) ∧
    (∀ j : Json, j.getField "type" ≠ some (Json.str "user-profile") →
      handleScanResult j = none) ∧
    (∀ (j d : Json), j.getField "data" = some d →
      (d.getField "email" = none ∨ d.getField "email" = some (Json.str "")) →
      handleScanResult j = none) := by
  refine ⟨?_, fun j h => handleScanResult_badTag h, fun j d h1 h2 => handleScanResult_noEmail h1 h2⟩
  intro u h1 h2 h3 h4 h5 h6 h7
  obtain ⟨uid, ufn, uem, uph, ubi, uav, udob, uloc⟩ := u
  dsimp only at h1 h2 h3 h4 h5 h6 h7
  subst h1 h2 h3 h4 h5
  simp [generateQRData, qrPayloadJson, jsOrEmpty, dobToQR, handleScanResult,
    Json.getField, JObj.ofList, JObj.lookup, jsOrJson, jsTruthy, bne_iff_ne, h6, h7]

/-- Concrete instance of the C8 theorem: the all-optional-empty profile
round-trips; a wrong-tag payload fails; a payload with fullName but no
email fails. -/
theorem qr_roundtrip_and_validation_witness :
    (clientUserA.phoneNumber = none ∧ clientUserA.bio = none ∧
     clientUserA.avatarUrl = none ∧ clientUserA.dateOfBirth = none ∧
     clientUserA.location = none ∧ clientUserA.fullName ≠ "" ∧ clientUserA.email ≠ "" ∧
     handleScanResult (qrPayloadJson (generateQRData clientUserA)) =
       some { fullName := Json.str clientUserA.fullName,
              email := Json.str clientUserA.email,
              phoneNumber := Json.str "", bio := Json.str "", avatarUrl := Json.str "",
              dateOfBirth := Json.str "", location := Json.str "" }) ∧
    ((Json.obj (JObj.cons "type" (Json.str "x") JObj.nil)).getField "type" ≠
       some (Json.str "user-profile") ∧
     handleScanResult (Json.obj (JObj.cons "type" (Json.str "x") JObj.nil)) = none) ∧
    ((Json.obj (JObj.cons "type" (Json.str "user-profile")
        (JObj.cons "data" (Json.obj (JObj.cons "fullName" (Json.str "Ada") JObj.nil))
          JObj.nil))).getField "data" =
       some (Json.obj (JObj.cons "fullName" (Json.str "Ada") JObj.nil)) ∧
     handleScanResult (Json.obj (JObj.cons "type" (Json.str "user-profile")
        (JObj.cons "data" (Json.obj (JObj.cons "fullName" (Json.str "Ada") JObj.nil))
          JObj.nil))) = none) :=
  ⟨⟨by decide, by decide, by decide, by decide, by decide, by decide, by decide,
    qr_roundtrip_and_validation.1 clientUserA (by decide) (by decide) (by decide)
      (by decide) (by decide) (by decide) (by decide)⟩,
   ⟨by decide,
    qr_roundtrip_and_validation.2.1 (Json.obj (JObj.cons "type" (Json.str "x") JObj.nil))
      (by decide)⟩,
   ⟨by decide,
    qr_roundtrip_and_validation.2.2
      (Json.obj (JObj.cons "type" (Json.str "user-profile")
        (JObj.cons "data" (Json.obj (JObj.cons "fullName" (Json.str "Ada") JObj.nil))
          JObj.nil)))
      (Json.obj (JObj.cons "fullName" (Json.str "Ada") JObj.nil))
      (by decide) (Or.inl (by decide))⟩⟩

/-- C9 counterexample: the page-2 navigation is dispatched after the slower
page-1 fetch; when the page-1 response arrives last, the coordinator's state
ends as page 1's result set, which differs from page 2's — so page 2's data
is not the one ultimately shown for every arrival order. -/
theorem coordinator_stale_overwrite_counterexample :
    runArrivals pageState0 [respPage2, respPage1] =
      { users := [clientUserA], pagination := pagDescr1 } ∧
    respPage1.data.data = [clientUserA] ∧
    respPage2.data.data = [clientUserB] ∧
    ([clientUserA] : List UserT) ≠ [clientUserB] := by
  decide

/-- C9 (amended): loadUsers applies responses in arrival order with no
request-sequence fence, so the state ultimately shown is that of the last
successful responder, whichever request it answers — page 2's data wins
exactly when its response arrives last. -/
theorem coordinator_last_responder_wins (s : AppPageState) (rs : List ListApiResponse)
    (r : ListApiResponse) (h : r.success = true) :
    runArrivals s (rs ++ [r]) =
      { users := r.data.data, pagination := r.data.pagination } := by
  simp [runArrivals, List.foldl_append, applyLoadUsersResponse, h]

/-- Concrete instance of the amended C9 theorem: after the page-2 response
and then the late page-1 response, the shown state is page 1's. -/
theorem coordinator_last_responder_wins_witness :
    respPage1.success = true ∧
    runArrivals pageState0 ([respPage2] ++ [respPage1]) =
      { users := respPage1.data.data, pagination := respPage1.data.pagination } :=
  ⟨by decide, coordinator_last_responder_wins pageState0 [respPage2] respPage1 (by decide)⟩

set_option maxRecDepth 4000 in
/-- C3 counterexample: with a cached page holding the profile about to be
deleted, the delete succeeds and the re-fetch is dispatched, yet at dispatch
time the cache is exactly the pre-delete cache and still serves the cached
page containing the deleted profile — no invalidation has happened. -/
theorem delete_no_invalidation_counterexample :
    (handleDeleteUserStep "a1"
      { cache := APICache.set 0 "/api/users" cachedPageJson (some cachedPageParams)
          300000 APICache.empty,
        db := [dbUserA] }).2 = true ∧
    (handleDeleteUserStep "a1"
      { cache := APICache.set 0 "/api/users" cachedPageJson (some cachedPageParams)
          300000 APICache.empty,
        db := [dbUserA] }).1.cache =
      APICache.set 0 "/api/users" cachedPageJson (some cachedPageParams)
        300000 APICache.empty ∧
    (APICache.get 1 "/api/users" (some cachedPageParams)
      ((handleDeleteUserStep "a1"
        { cache := APICache.set 0 "/api/users" cachedPageJson (some cachedPageParams)
            300000 APICache.empty,
          db := [dbUserA] }).1.cache)).1 = some cachedPageJson := by
  decide

/-- C3 (amended): the delete flow performs no cache operation at all — the
cache at the moment the re-fetch is dispatched equals the cache before the
delete — and the dispatched re-fetch reads only the backend table, never the
cache, so its result is the same for every cache content (the deleted record
cannot come back from a stale cached page because no cached page is ever
consulted, not because one was invalidated). -/
theorem delete_flow_cache_untouched (id : String) (w : AppWorld) :
    (handleDeleteUserStep id w).1.cache = w.cache ∧
    (∀ (page limit search : Option String) (c c2 : APICache),
      loadUsersFetch page limit search
        { cache := c, db := (handleDeleteUserStep id w).1.db } =
      loadUsersFetch page limit search
        { cache := c2, db := (handleDeleteUserStep id w).1.db }) := by
  exact ⟨rfl, fun page limit search c c2 => rfl⟩

/-- C1 code evaluation: against a table of two rows, a request with page=1,
limit=1 and a search matching neither row is answered with the full
two-element bare array — every query parameter is ignored — the body does
not have the claimed data-plus-pagination shape, and the client surfaces
that bare array unchanged as the data field of its uniform result. -/
theorem server_list_ignores_query_params :
    serverGetUsers (some "1") (some "1") (some "zzz") [dbUserB, dbUserA] =
      serverGetUsers none none none [dbUserB, dbUserA] ∧
    (serverGetUsers (some "1") (some "1") (some "zzz") [dbUserB, dbUserA]).2 =
      Json.arr (JArr.cons (dbUserToJson dbUserA) (JArr.cons (dbUserToJson dbUserB) JArr.nil)) ∧
    specListBodyShape
      (serverGetUsers (some "1") (some "1") (some "zzz") [dbUserB, dbUserA]).2 = false ∧
    (getAllUsersClient (FetchOutcome.success
        (serverGetUsers (some "1") (some "1") (some "zzz") [dbUserB, dbUserA]).1
        (serverGetUsers (some "1") (some "1") (some "zzz") [dbUserB, dbUserA]).2)).success =
      true ∧
    (getAllUsersClient (FetchOutcome.success
        (serverGetUsers (some "1") (some "1") (some "zzz") [dbUserB, dbUserA]).1
        (serverGetUsers (some "1") (some "1") (some "zzz") [dbUserB, dbUserA]).2)).data =
      (serverGetUsers (some "1") (some "1") (some "zzz") [dbUserB, dbUserA]).2 := by
  decide

/-- C2 code evaluation: the backend's 404 for get-by-id carries the body
with error text User not found; the client's 404 remap tests for the
substring 404 inside the message, which that text lacks, so getUserById
answers with the generic empty-object placeholder instead of the claimed
data=null; only a 404 whose body lacks an error field (generic message
HTTP error! status: 404) triggers the data=null remap. -/
theorem getUserById_404_returns_placeholder :
    (serverGetUserById "missing" [dbUserA]).1 = 404 ∧
    jsIncludes "User not found" "404" = false ∧
    getUserById (FetchOutcome.success (serverGetUserById "missing" [dbUserA]).1
        (serverGetUserById "missing" [dbUserA]).2) =
      { data := Json.obj JObj.nil, success := false, message := "User not found" } ∧
    (getUserById (FetchOutcome.success (serverGetUserById "missing" [dbUserA]).1
        (serverGetUserById "missing" [dbUserA]).2)).data ≠ Json.null ∧
    getUserById (FetchOutcome.success 404 (Json.obj JObj.nil)) =
      { data := Json.null, success := false, message := "User not found" } := by
  decide

/-- C10: the cache key derivation is not injective — the endpoint
concatenated with the serialized params collides with a longer endpoint and
absent params — and consequently a get with one argument pair returns the
value stored by a set with a different argument pair. -/
theorem generateKey_not_injective :
    ∃ (e1 : String) (p1 : Option Json) (e2 : String) (p2 : Option Json),
      (e1, p1) ≠ (e2, p2) ∧
      APICache.generateKey e1 p1 = APICache.generateKey e2 p2 ∧
      (APICache.get 0 e2 p2
        (APICache.set 0 e1 (Json.str "v") p1 300000 APICache.empty)).1 =
        some (Json.str "v") := by
  refine ⟨"users", some (Json.obj (JObj.cons "page" (Json.num 1) JObj.nil)),
    "users\x7b\"page\":1\x7d", none, ?_, ?_, ?_⟩
  · decide
  · decide
  · decide
